import Mathlib

/-!
Verification development for an air-cargo booking application.

Embedded components:
* the route-search handler (`supabase/functions/get-routes/index.ts`):
  duration rendering (`calculateDuration`), duration parsing (`parseDuration`,
  the regex `(\d+)h\s*(\d+)m` modelled as a deterministic leftmost scanner),
  the three catalog queries, the two-hour layover filter, the `limit(3)` cap
  on second hops, and the final stable sort by parsed duration;
* the booking status-transition handler (`update-booking-status`):
  status validation, the transition table, the cancel guard, the status
  update with its database trigger (event insertion from the SQL migration),
  and the best-effort patch of the latest timeline event.

Timestamps are embedded as integer milliseconds since the epoch (the value of
JavaScript `Date.getTime()`); `Math.floor` on a quotient of integers is
`Int.fdiv`, and the JavaScript remainder operator (sign of the dividend) is
`Int.tmod`.  Store queries are modelled as pure functions of a catalog list,
with an explicit outcome type for queries whose failure the handler discards.
-/

namespace AirCargo

def msPerMinute : Int := 60000

def msPerHour : Int := 3600000

def msPerDay : Int := 86400000

/-- Core loop for decimal digit rendering, structural in a fuel argument so
that concrete evaluations reduce in the kernel; digits accumulate most
significant first. -/
def natDigitsCore : Nat → Nat → List Char → List Char
  | 0, _, acc => acc
  | fuel + 1, n, acc =>
    if n < 10 then Char.ofNat (48 + n) :: acc
    else natDigitsCore fuel (n / 10) (Char.ofNat (48 + n % 10) :: acc)

/-- Decimal digit characters of a natural number, most significant first:
the rendering JavaScript uses for integral numbers in a template literal.
Fuel `n + 1` always suffices since a number bounds its own digit count. -/
def natDigits (n : Nat) : List Char := natDigitsCore (n + 1) n []

/-- Decimal rendering of an integer, with a leading minus sign when negative
(JavaScript `${i}` for an integral number `i`). -/
def intDecimal (i : Int) : List Char :=
  if i < 0 then '-' :: natDigits i.natAbs else natDigits i.toNat

/-- Embedding of `calculateDuration(start, end)`:
`hours = Math.floor(diffMs / 3600000)`,
`minutes = Math.floor((diffMs % 3600000) / 60000)`,
rendered as `` `${hours}h ${minutes}m` ``. -/
def calculateDuration (startMs endMs : Int) : String :=
  let diffMs := endMs - startMs
  let hours := diffMs.fdiv msPerHour
  let minutes := (diffMs.tmod msPerHour).fdiv msPerMinute
  String.mk (intDecimal hours ++ ('h' :: ' ' :: (intDecimal minutes ++ ['m'])))

/-- The regex class `\d`: the characters `'0'`–`'9'` (codes 48–57). -/
def isDigitChar (c : Char) : Bool := 48 ≤ c.toNat && c.toNat ≤ 57

/-- The regex class `\s` restricted to its ASCII members
(space, tab, line feed, vertical tab, form feed, carriage return);
`calculateDuration` only ever emits a plain space here. -/
def isSpaceChar (c : Char) : Bool :=
  c.toNat == 32 || c.toNat == 9 || c.toNat == 10 ||
  c.toNat == 11 || c.toNat == 12 || c.toNat == 13

/-- Numeric value of a decimal digit character. -/
def digitVal (c : Char) : Nat := c.toNat - 48

/-- Value of a digit string, as computed by `parseInt` on a digit match. -/
def digitsVal (l : List Char) : Nat := l.foldl (fun a c => 10 * a + digitVal c) 0

/-- Attempt to match the regex `(\d+)h\s*(\d+)m` at the head of the list.
Both `\d+` groups are greedy; because a shorter digit run always ends just
before another digit (never before `'h'`/`'m'`), and a shorter space run ends
before a space (never before a digit), backtracking can never produce a match
where this deterministic scan fails, so the scan is faithful to the regex. -/
def matchAt (cs : List Char) : Option (Nat × Nat) :=
  let d1 := cs.takeWhile isDigitChar
  let r1 := cs.dropWhile isDigitChar
  if d1.isEmpty then none else
  match r1 with
  | 'h' :: r2 =>
    let r3 := r2.dropWhile isSpaceChar
    let d2 := r3.takeWhile isDigitChar
    let r4 := r3.dropWhile isDigitChar
    if d2.isEmpty then none else
    match r4 with
    | 'm' :: _ => some (digitsVal d1, digitsVal d2)
    | _ => none
  | _ => none

/-- Leftmost match of `(\d+)h\s*(\d+)m` in the list (`String.prototype.match`
tries every start position from the left). -/
def findMatch : List Char → Option (Nat × Nat)
  | [] => none
  | c :: cs =>
    match matchAt (c :: cs) with
    | some r => some r
    | none => findMatch cs

/-- Embedding of `parseDuration(duration)`: on a match of
`(\d+)h\s*(\d+)m` return `hours * 60 + minutes`, otherwise `0`. -/
def parseDuration (s : String) : Nat :=
  match findMatch s.data with
  | some (h, m) => h * 60 + m
  | none => 0

/-- A row of the `flights` table (timestamps in epoch milliseconds). -/
structure Flight where
  id : Nat
  flight_number : String
  airline_name : String
  departure_datetime : Int
  arrival_datetime : Int
  origin : String
  destination : String
deriving DecidableEq, Repr

/-- The `type` discriminator of a route option (`'direct' | 'transit'`). -/
inductive RouteType
  | direct
  | transit
deriving DecidableEq, Repr

/-- The `RouteOption` records built by the handler. -/
structure RouteOption where
  type : RouteType
  flights : List Flight
  total_duration : String
deriving DecidableEq, Repr

/-- Comparison used by `.order('departure_datetime')`. -/
def depLE (a b : Flight) : Prop := a.departure_datetime ≤ b.departure_datetime

instance : DecidableRel depLE := fun a b => Int.decLe _ _

instance : IsTotal Flight depLE := ⟨fun x y => Int.le_total x.departure_datetime y.departure_datetime⟩

instance : IsTrans Flight depLE := ⟨fun _ _ _ => Int.le_trans⟩

/-- Rows of a query ordered by `departure_datetime` ascending.  The database
leaves the order of equal timestamps unspecified; we model the order as the
stable sort of the table's row list. -/
def sortByDeparture (l : List Flight) : List Flight := l.insertionSort depLE

/-- The direct-flight query: `origin = o`, `destination = d`,
`departure_datetime` in `[start, start + 1 day)`, ordered by departure. -/
def directQuery (catalog : List Flight) (origin destination : String)
    (startMs : Int) : List Flight :=
  sortByDeparture (catalog.filter fun f =>
    f.origin == origin && f.destination == destination &&
    decide (startMs ≤ f.departure_datetime) &&
    decide (f.departure_datetime < startMs + msPerDay))

/-- The first-hop query: `origin = o`, `destination ≠ d`,
`departure_datetime` in `[start, start + 1 day)`, ordered by departure. -/
def firstHopQuery (catalog : List Flight) (origin destination : String)
    (startMs : Int) : List Flight :=
  sortByDeparture (catalog.filter fun f =>
    f.origin == origin && f.destination != destination &&
    decide (startMs ≤ f.departure_datetime) &&
    decide (f.departure_datetime < startMs + msPerDay))

/-- The second-hop query for a given first hop: `origin = first.destination`,
`destination = d`, `departure_datetime` in
`[first.arrival, first.arrival + 2 days)`, ordered by departure
(the `.limit(3)` of the source is applied by the caller as `take 3`). -/
def secondHopQuery (catalog : List Flight) (destination : String)
    (first : Flight) : List Flight :=
  sortByDeparture (catalog.filter fun f =>
    f.origin == first.destination && f.destination == destination &&
    decide (first.arrival_datetime ≤ f.departure_datetime) &&
    decide (f.departure_datetime < first.arrival_datetime + 2 * msPerDay))

/-- The route option pushed for a direct flight. -/
def mkDirectRoute (f : Flight) : RouteOption :=
  ⟨.direct, [f], calculateDuration f.departure_datetime f.arrival_datetime⟩

/-- The route option pushed for an accepted two-hop combination. -/
def mkTransitRoute (f1 f2 : Flight) : RouteOption :=
  ⟨.transit, [f1, f2],
    calculateDuration f1.departure_datetime f2.arrival_datetime⟩

/-- The minimum-connection check `layoverHours >= 2`; on millisecond
integers the floating-point division by `3600000` is exact enough that the
comparison is equivalent to `7200000 ≤ departure − arrival`. -/
def layoverOK (f1 f2 : Flight) : Bool :=
  decide (2 * msPerHour ≤ f2.departure_datetime - f1.arrival_datetime)

/-- The transit route options contributed by one first hop, given the rows
the second-hop query returned: layover filter applied in order. -/
def transitRoutesFor (f1 : Flight) (secondHops : List Flight) :
    List RouteOption :=
  secondHops.filterMap fun f2 =>
    if layoverOK f1 f2 then some (mkTransitRoute f1 f2) else none

/-- Outcome of one supabase query: row data, or an error (in which case the
destructured `data` is `null`). -/
inductive QueryResult
  | ok (flights : List Flight)
  | err

/-- The three query outcomes one request observes. -/
structure RouteStore where
  directResult : QueryResult
  firstHopResult : QueryResult
  secondHopResult : Flight → QueryResult

/-- The store when every query succeeds, answering from `catalog`. -/
def healthyStore (catalog : List Flight) (origin destination : String)
    (startMs : Int) : RouteStore :=
  ⟨.ok (directQuery catalog origin destination startMs),
   .ok (firstHopQuery catalog origin destination startMs),
   fun f1 => .ok ((secondHopQuery catalog destination f1).take 3)⟩

/-- The unsorted `routes` array: direct options pushed first, then the
transit options of each first hop in query order.  A query error leaves
`data` null, so its `if (data && data.length > 0)` block contributes
nothing. -/
def collectRoutes (store : RouteStore) : List RouteOption :=
  (match store.directResult with
   | .ok fs => fs.map mkDirectRoute
   | .err => []) ++
  (match store.firstHopResult with
   | .ok fs => fs.flatMap fun f1 =>
      match store.secondHopResult f1 with
      | .ok shs => transitRoutesFor f1 shs
      | .err => []
   | .err => [])

/-- Sort key of a route option: `parseDuration(total_duration)`. -/
def durKey (r : RouteOption) : Nat := parseDuration r.total_duration

/-- The comparator `parseDuration(a) - parseDuration(b)` orders by parsed
duration ascending. -/
def durLE (a b : RouteOption) : Prop := durKey a ≤ durKey b

instance : DecidableRel durLE := fun a b => Nat.decLe _ _

instance : IsTotal RouteOption durLE := ⟨fun x y => Nat.le_total (durKey x) (durKey y)⟩

instance : IsTrans RouteOption durLE := ⟨fun _ _ _ => Nat.le_trans⟩

/-- `routes.sort(...)`: ECMAScript sorts are stable, so the result is the
stable sort by parsed duration, which `List.insertionSort` computes. -/
def sortRoutes (rs : List RouteOption) : List RouteOption :=
  rs.insertionSort durLE

/-- Response of the route handler. -/
structure RoutesResponse where
  status : Nat
  routes : List RouteOption
  error : Option String
deriving DecidableEq, Repr

/-- The `get-routes` handler body.  `parsedStart = none` models a request
date on which `new Date(...).toISOString()` throws, reaching the catch-all
500 handler; empty request fields are falsy and rejected with 400.  When the
inputs are well formed the handler returns 200 with the sorted routes built
from whatever the three queries produced — a query error is discarded by the
destructuring `const { data } = ...`. -/
def getRoutes (origin destination departure_date : String)
    (parsedStart : Option Int) (store : RouteStore) : RoutesResponse :=
  if origin.isEmpty || destination.isEmpty || departure_date.isEmpty then
    ⟨400, [], some "Missing required parameters"⟩
  else
    match parsedStart with
    | none => ⟨500, [], some "Internal server error"⟩
    | some _ => ⟨200, sortRoutes (collectRoutes store), none⟩

/-- The route list the handler returns for a healthy store. -/
def searchRoutes (catalog : List Flight) (origin destination : String)
    (startMs : Int) : List RouteOption :=
  sortRoutes (collectRoutes (healthyStore catalog origin destination startMs))

/-- A row of the `bookings` table.  `status` is a string; the schema CHECK
constraint confines it to the five lifecycle states. -/
structure Booking where
  id : Nat
  ref_id : String
  origin : String
  destination : String
  pieces : Int
  weight_kg : Int
  status : String
deriving DecidableEq, Repr

/-- A row of the `booking_events` table (creation time in abstract ticks). -/
structure BookingEvent where
  id : Nat
  booking_id : Nat
  event_type : String
  location : Option String
  notes : Option String
  flight_id : Option String
  created_at : Nat
deriving DecidableEq, Repr

/-- The persistent state the status handler touches. -/
structure BookingStore where
  bookings : List Booking
  events : List BookingEvent
deriving DecidableEq, Repr

/-- Which of the four store operations fail during one request. -/
structure StoreBehavior where
  fetchFails : Bool
  updateFails : Bool
  latestEventFetchFails : Bool
  eventUpdateFails : Bool
deriving DecidableEq, Repr

/-- The request body of `update-booking-status`.  The handler also
destructures a `location` field but never uses it; absent and empty-string
(falsy) optional fields are both modelled as `none`. -/
structure AdvanceRequest where
  ref_id : String
  status : String
  notes : Option String
  flight_id : Option String
deriving DecidableEq, Repr

/-- Response of the status handler. -/
structure AdvanceResponse where
  status : Nat
  error : Option String
  message : Option String
deriving DecidableEq, Repr

/-- `validStatuses` from the source. -/
def validStatuses : List String :=
  ["BOOKED", "DEPARTED", "ARRIVED", "DELIVERED", "CANCELLED"]

/-- The `validTransitions` record; lookup of a key outside the record gives
`undefined` (`none`). -/
def validTransitions (s : String) : Option (List String) :=
  if s == "BOOKED" then some ["DEPARTED", "CANCELLED"]
  else if s == "DEPARTED" then some ["ARRIVED"]
  else if s == "ARRIVED" then some ["DELIVERED"]
  else if s == "DELIVERED" then some []
  else if s == "CANCELLED" then some []
  else none

/-- `validTransitions[current]?.includes(status)`: `undefined` is falsy. -/
def allowsTransition (table : String → Option (List String))
    (current requested : String) : Bool :=
  match table current with
  | some l => l.contains requested
  | none => false

/-- Default event location computed by the database trigger
`create_booking_event` on a status change. -/
def triggerLocation (b : Booking) (newStatus : String) : Option String :=
  if newStatus == "DEPARTED" then some b.origin
  else if newStatus == "ARRIVED" then some b.destination
  else if newStatus == "DELIVERED" then some b.destination
  else none

/-- A fresh event id (the database draws a fresh UUID). -/
def freshEventId (st : BookingStore) : Nat :=
  (st.events.map (fun ev => ev.id)).foldl max 0 + 1

/-- A fresh creation tick, later than every existing event. -/
def freshEventTime (st : BookingStore) : Nat :=
  (st.events.map (fun ev => ev.created_at)).foldl max 0 + 1

/-- The query `order('created_at', descending).limit(1).single()` on the
events of one booking: an event with maximal creation time (ties resolved
deterministically in favour of the earlier row). -/
def latestEventFor (st : BookingStore) (bid : Nat) : Option BookingEvent :=
  (st.events.filter fun ev => ev.booking_id == bid).foldl
    (fun acc ev =>
      match acc with
      | none => some ev
      | some a => if a.created_at < ev.created_at then some ev else some a)
    none

/-- The `update-booking-status` handler body, parametrised by the transition
table (the source fixes it to `validTransitions`; the parameter lets us state
that the cancel guard is independent of the table).  Mirrors the source
order: required-field check, known-status check, booking fetch, table check,
cancel guard, status update (with the trigger appending a status event when
the status actually changes), then the best-effort patch of the latest event
— whose failure the source ignores, still returning 200. -/
def advanceWith (table : String → Option (List String)) (st : BookingStore)
    (beh : StoreBehavior) (req : AdvanceRequest) :
    AdvanceResponse × BookingStore :=
  if req.ref_id.isEmpty || req.status.isEmpty then
    (⟨400, some "Booking reference and status are required", none⟩, st)
  else if ! validStatuses.contains req.status then
    (⟨400, some "Invalid status", none⟩, st)
  else
    match
      (if beh.fetchFails then none
       else st.bookings.find? fun b => b.ref_id == req.ref_id) with
    | none => (⟨404, some "Booking not found", none⟩, st)
    | some b =>
      if ! allowsTransition table b.status req.status then
        (⟨400,
          some ("Cannot change status from " ++ b.status ++ " to " ++
            req.status), none⟩, st)
      else if req.status == "CANCELLED" &&
          (b.status == "ARRIVED" || b.status == "DELIVERED") then
        (⟨400, some "Cannot cancel booking that has already arrived", none⟩,
          st)
      else if beh.updateFails then
        (⟨500, some "Failed to update booking status", none⟩, st)
      else
        let newEvent : BookingEvent :=
          ⟨freshEventId st, b.id, req.status, triggerLocation b req.status,
            none, none, freshEventTime st⟩
        let st1 : BookingStore :=
          ⟨st.bookings.map fun x =>
             if x.ref_id == req.ref_id then { x with status := req.status }
             else x,
           if b.status == req.status then st.events
           else st.events ++ [newEvent]⟩
        let st2 : BookingStore :=
          if req.notes.isSome || req.flight_id.isSome then
            match
              (if beh.latestEventFetchFails then none
               else latestEventFor st1 b.id) with
            | some le =>
              if beh.eventUpdateFails then st1
              else
                ⟨st1.bookings,
                 st1.events.map fun ev =>
                   if ev.id == le.id then
                     { ev with
                        notes := req.notes.or ev.notes,
                        flight_id := req.flight_id.or ev.flight_id }
                   else ev⟩
            | none => st1
          else st1
        (⟨200, none, some "Booking status updated successfully"⟩, st2)

/-- The handler with the transition table of the source. -/
def advanceBookingStatus (st : BookingStore) (beh : StoreBehavior)
    (req : AdvanceRequest) : AdvanceResponse × BookingStore :=
  advanceWith validTransitions st beh req

/-! ### Helper lemmas on decimal rendering and duration parsing -/

theorem digitChar_is_digit : ∀ d : Nat, d < 10 →
    isDigitChar (Char.ofNat (48 + d)) = true := by decide

theorem digitChar_val : ∀ d : Nat, d < 10 →
    digitVal (Char.ofNat (48 + d)) = d := by decide

theorem natDigitsCore_ne_nil (fuel n : Nat) (acc : List Char) (h : n < fuel) :
    natDigitsCore fuel n acc ≠ [] := by
  induction fuel generalizing n acc with
  | zero => omega
  | succ fuel ih =>
    by_cases hn : n < 10
    · simp [natDigitsCore, if_pos hn]
    · simp only [natDigitsCore, if_neg hn]
      exact ih (n / 10) _ (by omega)

theorem natDigits_ne_nil (n : Nat) : natDigits n ≠ [] :=
  natDigitsCore_ne_nil (n + 1) n [] (by omega)

theorem natDigitsCore_all (fuel n : Nat) (acc : List Char) (h : n < fuel)
    (hacc : ∀ c ∈ acc, isDigitChar c = true) :
    ∀ c ∈ natDigitsCore fuel n acc, isDigitChar c = true := by
  induction fuel generalizing n acc with
  | zero => omega
  | succ fuel ih =>
    by_cases hn : n < 10
    · simp only [natDigitsCore, if_pos hn]
      intro c hc
      rcases List.mem_cons.mp hc with hc | hc
      · subst hc
        exact digitChar_is_digit n (by omega)
      · exact hacc c hc
    · simp only [natDigitsCore, if_neg hn]
      refine ih (n / 10) _ (by omega) ?_
      intro c hc
      rcases List.mem_cons.mp hc with hc | hc
      · subst hc
        exact digitChar_is_digit (n % 10) (by omega)
      · exact hacc c hc

theorem natDigits_all_digit (n : Nat) :
    ∀ c ∈ natDigits n, isDigitChar c = true :=
  natDigitsCore_all (n + 1) n [] (by omega) (by simp)

theorem digitsVal_append_singleton (l : List Char) (c : Char) :
    digitsVal (l ++ [c]) = 10 * digitsVal l + digitVal c := by
  unfold digitsVal
  rw [List.foldl_append]
  rfl

theorem natDigitsCore_append (fuel n : Nat) (acc : List Char) (h : n < fuel) :
    natDigitsCore fuel n acc = natDigitsCore fuel n [] ++ acc := by
  induction fuel generalizing n acc with
  | zero => omega
  | succ fuel ih =>
    by_cases hn : n < 10
    · simp only [natDigitsCore, if_pos hn]
      rfl
    · simp only [natDigitsCore, if_neg hn]
      rw [ih (n / 10) (Char.ofNat (48 + n % 10) :: acc) (by omega),
        ih (n / 10) [Char.ofNat (48 + n % 10)] (by omega),
        List.append_assoc]
      rfl

theorem digitsVal_natDigitsCore (fuel n : Nat) (h : n < fuel) :
    digitsVal (natDigitsCore fuel n []) = n := by
  induction fuel generalizing n with
  | zero => omega
  | succ fuel ih =>
    by_cases hn : n < 10
    · simp only [natDigitsCore, if_pos hn]
      unfold digitsVal
      simp only [List.foldl_cons, List.foldl_nil]
      rw [digitChar_val n (by omega)]
      omega
    · simp only [natDigitsCore, if_neg hn]
      rw [natDigitsCore_append fuel (n / 10) _ (by omega),
        digitsVal_append_singleton, ih (n / 10) (by omega),
        digitChar_val (n % 10) (by omega)]
      omega

theorem digitsVal_natDigits (n : Nat) : digitsVal (natDigits n) = n :=
  digitsVal_natDigitsCore (n + 1) n (by omega)

theorem digit_not_space {c : Char} (h : isDigitChar c = true) :
    isSpaceChar c = false := by
  simp only [isDigitChar, Bool.and_eq_true, decide_eq_true_eq] at h
  simp only [isSpaceChar, Bool.or_eq_false_iff, beq_eq_false_iff_ne, ne_eq]
  omega

theorem takeWhile_all_append {p : Char → Bool} :
    ∀ (l1 l2 : List Char), (∀ c ∈ l1, p c = true) →
      (∀ c, l2.head? = some c → p c = false) →
      (l1 ++ l2).takeWhile p = l1 := by
  intro l1
  induction l1 with
  | nil =>
    intro l2 _ h2
    cases l2 with
    | nil => rfl
    | cons c t => simp [List.takeWhile_cons, h2 c rfl]
  | cons a t ih =>
    intro l2 h1 h2
    have ha : p a = true := h1 a (by simp)
    simp only [List.cons_append, List.takeWhile_cons, ha, if_true]
    rw [ih l2 (fun c hc => h1 c (by simp [hc])) h2]

theorem dropWhile_all_append {p : Char → Bool} :
    ∀ (l1 l2 : List Char), (∀ c ∈ l1, p c = true) →
      (∀ c, l2.head? = some c → p c = false) →
      (l1 ++ l2).dropWhile p = l2 := by
  intro l1
  induction l1 with
  | nil =>
    intro l2 _ h2
    cases l2 with
    | nil => rfl
    | cons c t => simp [List.dropWhile_cons, h2 c rfl]
  | cons a t ih =>
    intro l2 h1 h2
    have ha : p a = true := h1 a (by simp)
    simp only [List.cons_append, List.dropWhile_cons, ha, if_true]
    exact ih l2 (fun c hc => h1 c (by simp [hc])) h2

theorem matchAt_not_digit {c : Char} (cs : List Char)
    (h : isDigitChar c = false) : matchAt (c :: cs) = none := by
  unfold matchAt
  simp [List.takeWhile_cons, h]

theorem findMatch_cons_none {c : Char} {cs : List Char}
    (h : matchAt (c :: cs) = none) : findMatch (c :: cs) = findMatch cs := by
  conv_lhs => rw [findMatch, h]

theorem matchAt_eq (cs : List Char) :
    matchAt cs =
      (if (cs.takeWhile isDigitChar).isEmpty then none else
       match cs.dropWhile isDigitChar with
       | 'h' :: r2 =>
         let r3 := r2.dropWhile isSpaceChar
         if (r3.takeWhile isDigitChar).isEmpty then none else
         match r3.dropWhile isDigitChar with
         | 'm' :: _ => some (digitsVal (cs.takeWhile isDigitChar),
             digitsVal (r3.takeWhile isDigitChar))
         | _ => none
       | _ => none) := rfl

theorem matchAt_form (dh dm : List Char)
    (hd : ∀ c ∈ dh, isDigitChar c = true) (hdn : dh ≠ [])
    (hm : ∀ c ∈ dm, isDigitChar c = true) (hmn : dm ≠ []) :
    matchAt (dh ++ ('h' :: ' ' :: (dm ++ ['m']))) =
      some (digitsVal dh, digitsVal dm) := by
  have hrest : ∀ c, ('h' :: ' ' :: (dm ++ ['m'])).head? = some c →
      isDigitChar c = false := by
    intro c hc
    rw [show ('h' :: ' ' :: (dm ++ ['m'])).head? = some 'h' from rfl] at hc
    cases hc
    decide
  have hm2 : ∀ c, (['m'] : List Char).head? = some c →
      isDigitChar c = false := by
    intro c hc
    rw [show (['m'] : List Char).head? = some 'm' from rfl] at hc
    cases hc
    decide
  have ht := takeWhile_all_append dh ('h' :: ' ' :: (dm ++ ['m'])) hd hrest
  have hdr := dropWhile_all_append dh ('h' :: ' ' :: (dm ++ ['m'])) hd hrest
  have ht2 := takeWhile_all_append dm ['m'] hm hm2
  have hdr2 := dropWhile_all_append dm ['m'] hm hm2
  have hspace : (' ' :: (dm ++ ['m'])).dropWhile isSpaceChar = dm ++ ['m'] := by
    cases dm with
    | nil => simp at hmn
    | cons a t =>
      show List.dropWhile isSpaceChar (' ' :: (a :: (t ++ ['m']))) = _
      rw [List.dropWhile_cons, show isSpaceChar ' ' = true from rfl]
      simp only [if_true]
      rw [List.dropWhile_cons, digit_not_space (hm a (by simp))]
      simp
  rw [matchAt_eq, ht, hdr]
  have hne : dh.isEmpty = false := by
    cases dh with
    | nil => simp at hdn
    | cons a t => rfl
  rw [hne]
  simp only [Bool.false_eq_true, if_false]
  show (let r3 := (' ' :: (dm ++ ['m'])).dropWhile isSpaceChar
        if (r3.takeWhile isDigitChar).isEmpty then none else
        match r3.dropWhile isDigitChar with
        | 'm' :: _ => some (digitsVal dh, digitsVal (r3.takeWhile isDigitChar))
        | _ => none) = some (digitsVal dh, digitsVal dm)
  rw [hspace]
  simp only [ht2, hdr2]
  have hne2 : dm.isEmpty = false := by
    cases dm with
    | nil => simp at hmn
    | cons a t => rfl
  rw [hne2]
  simp

theorem parseDuration_mk (l : List Char) :
    parseDuration (String.mk l) = (match findMatch l with
      | some (h, m) => h * 60 + m
      | none => 0) := rfl

theorem findMatch_hm_form (dh dm : List Char)
    (hd : ∀ c ∈ dh, isDigitChar c = true) (hdn : dh ≠ [])
    (hm : ∀ c ∈ dm, isDigitChar c = true) (hmn : dm ≠ []) :
    findMatch (dh ++ ('h' :: ' ' :: (dm ++ ['m']))) =
      some (digitsVal dh, digitsVal dm) := by
  cases dh with
  | nil => simp at hdn
  | cons a t =>
    have hma := matchAt_form (a :: t) dm hd hdn hm hmn
    rw [show ((a :: t : List Char) ++ ('h' :: ' ' :: (dm ++ ['m']))) =
        a :: (t ++ ('h' :: ' ' :: (dm ++ ['m']))) from rfl] at hma ⊢
    conv_lhs => rw [findMatch, hma]

theorem parseDuration_hm_form (dh dm : List Char)
    (hd : ∀ c ∈ dh, isDigitChar c = true) (hdn : dh ≠ [])
    (hm : ∀ c ∈ dm, isDigitChar c = true) (hmn : dm ≠ []) :
    parseDuration (String.mk (dh ++ ('h' :: ' ' :: (dm ++ ['m'])))) =
      digitsVal dh * 60 + digitsVal dm := by
  rw [parseDuration_mk, findMatch_hm_form dh dm hd hdn hm hmn]

theorem fdiv_ofNat (m n : Nat) :
    (Int.ofNat m).fdiv (Int.ofNat n) = Int.ofNat (m / n) :=
  (Int.ofNat_fdiv m n).symm

theorem tmod_ofNat (m n : Nat) :
    (Int.ofNat m).tmod (Int.ofNat n) = Int.ofNat (m % n) :=
  (Int.ofNat_tmod m n).symm

theorem calculateDuration_nonneg (s e : Int) (h : s ≤ e) :
    calculateDuration s e =
      String.mk (natDigits ((e - s).toNat / 3600000) ++ ('h' :: ' ' ::
        (natDigits ((e - s).toNat % 3600000 / 60000) ++ ['m']))) := by
  have hD : e - s = Int.ofNat (e - s).toNat := by
    rw [Int.ofNat_eq_natCast, Int.toNat_of_nonneg (by omega)]
  unfold calculateDuration
  rw [hD]
  show String.mk
      (intDecimal ((Int.ofNat (e - s).toNat).fdiv msPerHour) ++ ('h' :: ' ' ::
        (intDecimal (((Int.ofNat (e - s).toNat).tmod msPerHour).fdiv
          msPerMinute) ++ ['m']))) = _
  have h1 : msPerHour = Int.ofNat 3600000 := rfl
  have h2 : msPerMinute = Int.ofNat 60000 := rfl
  rw [h1, h2, fdiv_ofNat, tmod_ofNat, fdiv_ofNat]
  have hid : ∀ n : Nat, intDecimal (Int.ofNat n) = natDigits n := by
    intro n
    unfold intDecimal
    rw [if_neg (by exact Int.not_lt.mpr (Int.ofNat_nonneg n))]
    rfl
  rw [hid, hid,
    show (Int.ofNat (e - s).toNat).toNat = (e - s).toNat from rfl]

theorem parse_calc_nonneg (s e : Int) (h : s ≤ e) :
    parseDuration (calculateDuration s e) = (e - s).toNat / 60000 := by
  rw [calculateDuration_nonneg s e h,
    parseDuration_hm_form _ _ (natDigits_all_digit _) (natDigits_ne_nil _)
      (natDigits_all_digit _) (natDigits_ne_nil _),
    digitsVal_natDigits, digitsVal_natDigits]
  omega

theorem parse_calc_neg_multiple (s e : Int) (h : e < s)
    (hmu : (s - e) % 3600000 = 0) :
    parseDuration (calculateDuration s e) =
      60 * ((s - e) / 3600000).toNat := by
  obtain ⟨c, hc⟩ := Int.dvd_of_emod_eq_zero hmu
  have hcpos : 0 < c := by
    nlinarith [hc, h]
  have he : e - s = 3600000 * (-c) := by omega
  have hcd : calculateDuration s e =
      String.mk ('-' :: (natDigits c.toNat ++
        ('h' :: ' ' :: (natDigits 0 ++ ['m'])))) := by
    simp only [calculateDuration]
    rw [he, show msPerHour = (3600000 : Int) from rfl,
      show msPerMinute = (60000 : Int) from rfl,
      Int.mul_fdiv_cancel_left _ (by norm_num), Int.mul_tmod_right,
      Int.zero_fdiv,
      show intDecimal 0 = natDigits 0 from rfl]
    rw [intDecimal, if_pos (show -c < 0 by omega),
      show (-c).natAbs = c.toNat by omega]
    rfl
  rw [hcd, parseDuration_mk,
    findMatch_cons_none (matchAt_not_digit _ (by decide)),
    findMatch_hm_form (natDigits c.toNat) (natDigits 0)
      (natDigits_all_digit _) (natDigits_ne_nil _)
      (natDigits_all_digit _) (natDigits_ne_nil _),
    digitsVal_natDigits, digitsVal_natDigits]
  have hdiv : (s - e) / 3600000 = c := by
    rw [hc]
    exact Int.mul_ediv_cancel_left c (by norm_num)
  rw [hdiv]
  show c.toNat * 60 + 0 = 60 * c.toNat
  omega

/-! ### Claim C10 -/

/-- C10 (amended): for `end ≥ start`, parsing the rendered duration gives the
whole number of minutes in the difference, truncated (floor of hours times 60
plus floor of leftover minutes); any duration string in which the pattern
`(\d+)h\s*(\d+)m` has no match parses to `0`; however, `end < start` does
not always produce a non-matching string: when `start − end` is an exact
positive multiple of one hour the rendered string is `-Nh 0m`, whose
substring `Nh 0m` matches, and `parseDuration` returns `60·N`. -/
theorem parseDuration_calculateDuration_roundtrip :
    (∀ s e : Int, s ≤ e →
      parseDuration (calculateDuration s e) = (e - s).toNat / 60000)
    ∧ (∀ str : String, findMatch str.data = none → parseDuration str = 0)
    ∧ (∀ s e : Int, e < s → (s - e) % 3600000 = 0 →
      parseDuration (calculateDuration s e) =
        60 * ((s - e) / 3600000).toNat) := by
  refine ⟨parse_calc_nonneg, ?_, parse_calc_neg_multiple⟩
  intro str hstr
  unfold parseDuration
  rw [hstr]

/-- C10 counterexample: at `start = 3600000`, `end = 0` (so `end < start`,
with a negative hours component `-1`) the rendered duration is `"-1h 0m"`;
the pattern matches its substring `"1h 0m"`, and `parseDuration` returns
`60`, not `0` — so a route option carrying this string sorts among the
one-hour options, not before all positive durations. -/
theorem parseDuration_negative_hour_counterexample :
    ((0 : Int) < 3600000) ∧ calculateDuration 3600000 0 = "-1h 0m" ∧
      parseDuration (calculateDuration 3600000 0) = 60 ∧
      parseDuration (calculateDuration 3600000 0) ≠ 0 := by
  exact ⟨by decide, by decide, by decide, by decide⟩

/-- Witness for C10 at concrete inputs. -/
theorem parseDuration_calculateDuration_roundtrip_witness :
    parseDuration (calculateDuration 0 9000000) = 150 ∧
      parseDuration "no duration here" = 0 ∧
      parseDuration (calculateDuration 7200000 0) = 120 := by
  refine ⟨?_, ?_, ?_⟩
  · rw [parseDuration_calculateDuration_roundtrip.1 0 9000000 (by decide)]
    decide
  · exact parseDuration_calculateDuration_roundtrip.2.1 "no duration here"
      (by decide)
  · rw [parseDuration_calculateDuration_roundtrip.2.2 7200000 0 (by decide)
      (by decide)]
    decide

/-! ### Claim C2 -/

/-- C2: for an existing booking whose current status is one of the five
states and a requested status among the five, the handler (with a healthy
store) succeeds exactly when the requested status appears in the transition
table row of the current status; otherwise it fails with status 400 and the
message `Cannot change status from {current} to {requested}`.  In
particular every request fails when the current status is DELIVERED or
CANCELLED, whose rows are empty. -/
theorem advance_matches_transition_table (st : BookingStore)
    (beh : StoreBehavior) (req : AdvanceRequest) (b : Booking)
    (href : req.ref_id.isEmpty = false)
    (hS : req.status ∈ validStatuses) (hC : b.status ∈ validStatuses)
    (hfetch : beh.fetchFails = false) (hupd : beh.updateFails = false)
    (hfind : st.bookings.find? (fun x => x.ref_id == req.ref_id) = some b) :
    ((advanceBookingStatus st beh req).1.status = 200 ↔
      req.status ∈ (validTransitions b.status).getD [])
    ∧ (req.status ∉ (validTransitions b.status).getD [] →
      (advanceBookingStatus st beh req).1 =
        ⟨400, some ("Cannot change status from " ++ b.status ++ " to " ++
          req.status), none⟩) := by
  simp only [validStatuses, List.mem_cons, List.not_mem_nil, or_false] at hS hC
  rcases hS with h1 | h1 | h1 | h1 | h1 <;>
    rcases hC with h2 | h2 | h2 | h2 | h2 <;>
      simp +decide [advanceBookingStatus, advanceWith, href, hfetch, hupd,
        hfind, h1, h2, validStatuses, validTransitions, allowsTransition]

/-- Witness for C2: a BOOKED booking advanced to ARRIVED is rejected with
the table message. -/
theorem advance_matches_transition_table_witness :
    (advanceBookingStatus
        ⟨[⟨1, "ACB123456", "DEL", "BOM", 1, 1, "BOOKED"⟩], []⟩
        ⟨false, false, false, false⟩
        ⟨"ACB123456", "ARRIVED", none, none⟩).1 =
      ⟨400, some "Cannot change status from BOOKED to ARRIVED", none⟩ := by
  have h := advance_matches_transition_table
    ⟨[⟨1, "ACB123456", "DEL", "BOM", 1, 1, "BOOKED"⟩], []⟩
    ⟨false, false, false, false⟩
    ⟨"ACB123456", "ARRIVED", none, none⟩
    ⟨1, "ACB123456", "DEL", "BOM", 1, 1, "BOOKED"⟩
    (by decide) (by decide) (by decide) rfl rfl (by decide)
  exact (h.2 (by decide)).trans (by decide)

/-! ### Claim C6 -/

/-- C6: requesting CANCELLED on an existing booking whose current status is
ARRIVED or DELIVERED fails with a 400 invalid-transition response and leaves
the store unchanged — for every transition table, because the cancel guard
is a separate check after the table lookup; so the rejection would persist
even if CANCELLED were added to those rows. -/
theorem cancel_guard_independent_of_table
    (table : String → Option (List String)) (st : BookingStore)
    (beh : StoreBehavior) (req : AdvanceRequest) (b : Booking)
    (href : req.ref_id.isEmpty = false) (hS : req.status = "CANCELLED")
    (hC : b.status = "ARRIVED" ∨ b.status = "DELIVERED")
    (hfetch : beh.fetchFails = false)
    (hfind : st.bookings.find? (fun x => x.ref_id == req.ref_id) = some b) :
    (advanceWith table st beh req).1.status = 400 ∧
      (advanceWith table st beh req).2 = st := by
  rcases hC with h2 | h2 <;>
    simp +decide [advanceWith, href, hS, h2, hfetch, hfind, validStatuses] <;>
      split <;> exact ⟨rfl, rfl⟩

/-- Witness for C6: even with a table whose every row allows CANCELLED, an
ARRIVED booking cannot be cancelled, and the store is untouched. -/
theorem cancel_guard_independent_of_table_witness :
    (advanceWith (fun _ => some ["CANCELLED"])
        ⟨[⟨1, "ACB123456", "DEL", "BOM", 1, 1, "ARRIVED"⟩], []⟩
        ⟨false, false, false, false⟩
        ⟨"ACB123456", "CANCELLED", none, none⟩).1.status = 400 ∧
      (advanceWith (fun _ => some ["CANCELLED"])
        ⟨[⟨1, "ACB123456", "DEL", "BOM", 1, 1, "ARRIVED"⟩], []⟩
        ⟨false, false, false, false⟩
        ⟨"ACB123456", "CANCELLED", none, none⟩).2 =
        ⟨[⟨1, "ACB123456", "DEL", "BOM", 1, 1, "ARRIVED"⟩], []⟩ :=
  cancel_guard_independent_of_table (fun _ => some ["CANCELLED"])
    ⟨[⟨1, "ACB123456", "DEL", "BOM", 1, 1, "ARRIVED"⟩], []⟩
    ⟨false, false, false, false⟩
    ⟨"ACB123456", "CANCELLED", none, none⟩
    ⟨1, "ACB123456", "DEL", "BOM", 1, 1, "ARRIVED"⟩
    (by decide) rfl (Or.inl rfl) rfl (by decide)

/-! ### Claim C9 -/

/-- C9: the string BOOKED passes the known-status validation, yet no
transition-table row contains BOOKED, so requesting it on any existing
booking fails with the invalid-transition message — BOOKED is entered only
at creation and never re-entered through the handler. -/
theorem booked_never_reentered (st : BookingStore) (beh : StoreBehavior)
    (req : AdvanceRequest) (b : Booking)
    (href : req.ref_id.isEmpty = false) (hS : req.status = "BOOKED")
    (hC : b.status ∈ validStatuses)
    (hfetch : beh.fetchFails = false)
    (hfind : st.bookings.find? (fun x => x.ref_id == req.ref_id) = some b) :
    "BOOKED" ∈ validStatuses
    ∧ (∀ st', st' ∈ validStatuses → "BOOKED" ∉ (validTransitions st').getD [])
    ∧ (advanceBookingStatus st beh req).1 =
      ⟨400, some ("Cannot change status from " ++ b.status ++ " to BOOKED"),
        none⟩ := by
  refine ⟨by decide, by decide, ?_⟩
  simp only [validStatuses, List.mem_cons, List.not_mem_nil, or_false] at hC
  rcases hC with h2 | h2 | h2 | h2 | h2 <;>
    simp +decide [advanceBookingStatus, advanceWith, href, hS, h2, hfetch,
      hfind, validStatuses, validTransitions, allowsTransition]

/-- Witness for C9: advancing a DEPARTED booking back to BOOKED fails. -/
theorem booked_never_reentered_witness :
    (advanceBookingStatus
        ⟨[⟨1, "ACB123456", "DEL", "BOM", 1, 1, "DEPARTED"⟩], []⟩
        ⟨false, false, false, false⟩
        ⟨"ACB123456", "BOOKED", none, none⟩).1 =
      ⟨400, some "Cannot change status from DEPARTED to BOOKED", none⟩ := by
  have h := booked_never_reentered
    ⟨[⟨1, "ACB123456", "DEL", "BOM", 1, 1, "DEPARTED"⟩], []⟩
    ⟨false, false, false, false⟩
    ⟨"ACB123456", "BOOKED", none, none⟩
    ⟨1, "ACB123456", "DEL", "BOM", 1, 1, "DEPARTED"⟩
    (by decide) rfl (by decide) rfl (by decide)
  exact h.2.2.trans (by decide)

/-! ### Claim C4 -/

/-- Every run of the status handler either leaves the store untouched or
reports success. -/
theorem advance_result_cases (st : BookingStore) (beh : StoreBehavior)
    (req : AdvanceRequest) :
    (advanceBookingStatus st beh req).2 = st ∨
      (advanceBookingStatus st beh req).1.status = 200 := by
  unfold advanceBookingStatus advanceWith
  split
  · exact Or.inl rfl
  · split
    · exact Or.inl rfl
    · split
      · exact Or.inl rfl
      · split
        · exact Or.inl rfl
        · split
          · exact Or.inl rfl
          · split
            · exact Or.inl rfl
            · exact Or.inr rfl

/-- C4 (amended): on every error outcome (any non-200 response) the handler
leaves the whole store — in particular the booking's status — exactly as it
was before the call.  The companion counterexample shows the other half of
the original claim fails: a successful status update is not atomic with the
event patch. -/
theorem advance_error_leaves_store (st : BookingStore) (beh : StoreBehavior)
    (req : AdvanceRequest)
    (h : (advanceBookingStatus st beh req).1.status ≠ 200) :
    (advanceBookingStatus st beh req).2 = st := by
  rcases advance_result_cases st beh req with h2 | h2
  · exact h2
  · exact absurd h2 h

/-- Witness for C4: a rejected transition (DEPARTED requested on a DELIVERED
booking) leaves the store unchanged. -/
theorem advance_error_leaves_store_witness :
    (advanceBookingStatus
        ⟨[⟨1, "ACB123456", "DEL", "BOM", 1, 1, "DELIVERED"⟩], []⟩
        ⟨false, false, false, false⟩
        ⟨"ACB123456", "DEPARTED", none, none⟩).2 =
      ⟨[⟨1, "ACB123456", "DEL", "BOM", 1, 1, "DELIVERED"⟩], []⟩ :=
  advance_error_leaves_store
    ⟨[⟨1, "ACB123456", "DEL", "BOM", 1, 1, "DELIVERED"⟩], []⟩
    ⟨false, false, false, false⟩
    ⟨"ACB123456", "DEPARTED", none, none⟩
    (by decide)

/-- C4 counterexample: a BOOKED booking advanced to DEPARTED with notes
supplied, while the store's event update fails: the call reports success,
the status update takes effect, but no event carries the supplied notes —
the transition was applied partially, with no rollback. -/
theorem advance_partial_application_counterexample :
    ((advanceBookingStatus
        ⟨[⟨1, "ACB111111", "DEL", "BOM", 2, 5, "BOOKED"⟩],
         [⟨1, 1, "CREATED", some "DEL", none, none, 1⟩]⟩
        ⟨false, false, false, true⟩
        ⟨"ACB111111", "DEPARTED", some "urgent", none⟩).1.status = 200)
    ∧ ((advanceBookingStatus
        ⟨[⟨1, "ACB111111", "DEL", "BOM", 2, 5, "BOOKED"⟩],
         [⟨1, 1, "CREATED", some "DEL", none, none, 1⟩]⟩
        ⟨false, false, false, true⟩
        ⟨"ACB111111", "DEPARTED", some "urgent", none⟩).2.bookings.map
          (fun b => b.status) = ["DEPARTED"])
    ∧ (∀ ev ∈ (advanceBookingStatus
        ⟨[⟨1, "ACB111111", "DEL", "BOM", 2, 5, "BOOKED"⟩],
         [⟨1, 1, "CREATED", some "DEL", none, none, 1⟩]⟩
        ⟨false, false, false, true⟩
        ⟨"ACB111111", "DEPARTED", some "urgent", none⟩).2.events,
        ev.notes ≠ some "urgent") := by
  exact ⟨by decide, by decide, by decide⟩

/-! ### Helper lemmas on the route queries -/

theorem collectRoutes_healthy_eq (catalog : List Flight) (o d : String)
    (t : Int) :
    collectRoutes (healthyStore catalog o d t) =
      (directQuery catalog o d t).map mkDirectRoute ++
      (firstHopQuery catalog o d t).flatMap (fun f1 =>
        transitRoutesFor f1 ((secondHopQuery catalog d f1).take 3)) := rfl

theorem mem_searchRoutes (catalog : List Flight) (o d : String) (t : Int)
    (r : RouteOption) :
    r ∈ searchRoutes catalog o d t ↔
      r ∈ collectRoutes (healthyStore catalog o d t) :=
  List.mem_insertionSort durLE

theorem mem_routes_healthy (catalog : List Flight) (o d : String) (t : Int)
    (r : RouteOption) :
    r ∈ collectRoutes (healthyStore catalog o d t) ↔
      ((∃ f, f ∈ directQuery catalog o d t ∧ r = mkDirectRoute f) ∨
       (∃ f1 f2, f1 ∈ firstHopQuery catalog o d t ∧
         f2 ∈ (secondHopQuery catalog d f1).take 3 ∧
         layoverOK f1 f2 = true ∧ r = mkTransitRoute f1 f2)) := by
  rw [collectRoutes_healthy_eq, List.mem_append]
  constructor
  · rintro (hr | hr)
    · obtain ⟨f, hf, rfl⟩ := List.mem_map.mp hr
      exact Or.inl ⟨f, hf, rfl⟩
    · obtain ⟨f1, h1, hr2⟩ := List.mem_flatMap.mp hr
      rw [transitRoutesFor, List.mem_filterMap] at hr2
      obtain ⟨f2, h2, hif⟩ := hr2
      by_cases hl : layoverOK f1 f2
      · rw [if_pos hl] at hif
        cases hif
        exact Or.inr ⟨f1, f2, h1, h2, hl, rfl⟩
      · rw [if_neg hl] at hif
        cases hif
  · rintro (⟨f, hf, rfl⟩ | ⟨f1, f2, h1, h2, hl, rfl⟩)
    · exact Or.inl (List.mem_map.mpr ⟨f, hf, rfl⟩)
    · refine Or.inr (List.mem_flatMap.mpr ⟨f1, h1, ?_⟩)
      rw [transitRoutesFor, List.mem_filterMap]
      exact ⟨f2, h2, by rw [if_pos hl]⟩

theorem mem_directQuery (catalog : List Flight) (o d : String) (t : Int)
    (f : Flight) :
    f ∈ directQuery catalog o d t ↔
      f ∈ catalog ∧ f.origin = o ∧ f.destination = d ∧
        t ≤ f.departure_datetime ∧ f.departure_datetime < t + msPerDay := by
  unfold directQuery sortByDeparture
  rw [List.mem_insertionSort, List.mem_filter]
  simp only [Bool.and_eq_true, decide_eq_true_eq, beq_iff_eq]
  tauto

theorem mem_firstHopQuery (catalog : List Flight) (o d : String) (t : Int)
    (f : Flight) :
    f ∈ firstHopQuery catalog o d t ↔
      f ∈ catalog ∧ f.origin = o ∧ f.destination ≠ d ∧
        t ≤ f.departure_datetime ∧ f.departure_datetime < t + msPerDay := by
  unfold firstHopQuery sortByDeparture
  rw [List.mem_insertionSort, List.mem_filter]
  simp only [Bool.and_eq_true, decide_eq_true_eq, beq_iff_eq, bne_iff_ne,
    ne_eq]
  tauto

theorem mem_secondHopQuery (catalog : List Flight) (d : String)
    (first f : Flight) :
    f ∈ secondHopQuery catalog d first ↔
      f ∈ catalog ∧ f.origin = first.destination ∧ f.destination = d ∧
        first.arrival_datetime ≤ f.departure_datetime ∧
        f.departure_datetime < first.arrival_datetime + 2 * msPerDay := by
  unfold secondHopQuery sortByDeparture
  rw [List.mem_insertionSort, List.mem_filter]
  simp only [Bool.and_eq_true, decide_eq_true_eq, beq_iff_eq]
  tauto

/-! ### Claim C5 -/

/-- C5 (amended): with well-formed inputs the route handler returns a 200
success with no error for EVERY store outcome — a failing query is silently
discarded by the destructuring `const { data } = ...` and contributes
nothing — and a store succeeding with zero matching flights likewise yields
a successful response with an empty route list.  The 500 handler is reached
only by a thrown exception (modelled by an unparseable departure date), not
by a failed query. -/
theorem getRoutes_never_storeError (origin destination departure_date :
    String) (startMs : Int) (store : RouteStore)
    (ho : origin.isEmpty = false) (hd : destination.isEmpty = false)
    (hdd : departure_date.isEmpty = false) :
    getRoutes origin destination departure_date (some startMs) store =
      ⟨200, sortRoutes (collectRoutes store), none⟩
    ∧ collectRoutes ⟨.err, .err, fun _ => .err⟩ = []
    ∧ (∀ shr, collectRoutes ⟨.ok [], .ok [], shr⟩ = []) := by
  refine ⟨?_, rfl, fun shr => rfl⟩
  unfold getRoutes
  rw [ho, hd, hdd]
  rfl

/-- C5 counterexample: all three queries fail (the store rejects every
operation), yet the handler returns a 200 success with an empty route list
rather than a 5xx store error. -/
theorem storeError_swallowed_counterexample :
    getRoutes "DEL" "BOM" "2024-08-16" (some 0) ⟨.err, .err, fun _ => .err⟩ =
      ⟨200, [], none⟩
    ∧ (getRoutes "DEL" "BOM" "2024-08-16" (some 0)
        ⟨.err, .err, fun _ => .err⟩).status ≠ 500 :=
  ⟨rfl, by decide⟩

/-- Witness for C5: a healthy store with zero matching flights. -/
theorem getRoutes_never_storeError_witness :
    getRoutes "DEL" "BOM" "2024-08-16" (some 0)
        ⟨.ok [], .ok [], fun _ => .ok []⟩ = ⟨200, [], none⟩ := by
  have h := getRoutes_never_storeError "DEL" "BOM" "2024-08-16" 0
    ⟨.ok [], .ok [], fun _ => .ok []⟩ (by decide) (by decide) (by decide)
  exact h.1.trans (by decide)

/-! ### Claim C7 -/

/-- C7: the second-hop rows a first hop consumes are at most 3, taken from
the front of the window's rows ordered by departure (the earliest-departing
3), so each first hop contributes at most 3 transit route options, each
built from one of those rows. -/
theorem secondHop_cap (catalog : List Flight) (destination : String)
    (f1 : Flight) :
    (transitRoutesFor f1
        ((secondHopQuery catalog destination f1).take 3)).length ≤ 3
    ∧ List.Sorted depLE (secondHopQuery catalog destination f1)
    ∧ ((secondHopQuery catalog destination f1).take 3).length ≤ 3
    ∧ (∀ r ∈ transitRoutesFor f1
          ((secondHopQuery catalog destination f1).take 3),
        ∃ f2 ∈ (secondHopQuery catalog destination f1).take 3,
          r = mkTransitRoute f1 f2) := by
  refine ⟨?_, ?_, ?_, ?_⟩
  · calc (transitRoutesFor f1
          ((secondHopQuery catalog destination f1).take 3)).length
        ≤ ((secondHopQuery catalog destination f1).take 3).length :=
          List.length_filterMap_le _ _
      _ ≤ 3 := List.length_take_le 3 _
  · exact List.sorted_insertionSort depLE _
  · exact List.length_take_le 3 _
  · intro r hr
    rw [transitRoutesFor, List.mem_filterMap] at hr
    obtain ⟨f2, hf2, hif⟩ := hr
    refine ⟨f2, hf2, ?_⟩
    by_cases hl : layoverOK f1 f2
    · rw [if_pos hl] at hif
      exact (Option.some.inj hif).symm
    · rw [if_neg hl] at hif
      cases hif

/-- Witness for C7 on a one-flight window. -/
theorem secondHop_cap_witness :
    ∃ f2 ∈ (secondHopQuery
        [⟨2, "B", "b", 18000000, 21600000, "HYD", "BOM"⟩] "BOM"
        ⟨1, "A", "a", 0, 10800000, "DEL", "HYD"⟩).take 3,
      mkTransitRoute ⟨1, "A", "a", 0, 10800000, "DEL", "HYD"⟩
          ⟨2, "B", "b", 18000000, 21600000, "HYD", "BOM"⟩ =
        mkTransitRoute ⟨1, "A", "a", 0, 10800000, "DEL", "HYD"⟩ f2 :=
  (secondHop_cap [⟨2, "B", "b", 18000000, 21600000, "HYD", "BOM"⟩] "BOM"
    ⟨1, "A", "a", 0, 10800000, "DEL", "HYD"⟩).2.2.2 _ (by decide)

/-! ### Claim C1 -/

/-- C1 (amended): soundness — every transit option in the output pairs two
flights whose layover (second departure minus first arrival) is at least
two hours — and completeness under the cap: a first hop matching the
first-hop query combined with a second flight that is among the 3
earliest-departing rows of its second-hop window appears as a transit
option whenever the layover is at least two hours.  (Unamended, without the
among-the-first-3 condition, the claim fails because of the `limit(3)` cap:
see the counterexample.) -/
theorem transit_layover_capped_completeness (catalog : List Flight)
    (o d : String) (t : Int) :
    (∀ r ∈ searchRoutes catalog o d t, r.type = RouteType.transit →
      ∀ f1 f2, r.flights = [f1, f2] →
        2 * msPerHour ≤ f2.departure_datetime - f1.arrival_datetime)
    ∧ (∀ f1 f2 : Flight, f1 ∈ catalog → f1.origin = o →
        f1.destination ≠ d → t ≤ f1.departure_datetime →
        f1.departure_datetime < t + msPerDay →
        f2 ∈ (secondHopQuery catalog d f1).take 3 →
        2 * msPerHour ≤ f2.departure_datetime - f1.arrival_datetime →
        mkTransitRoute f1 f2 ∈ searchRoutes catalog o d t) := by
  constructor
  · intro r hr htype f1 f2 hfl
    rw [mem_searchRoutes, mem_routes_healthy] at hr
    rcases hr with ⟨f, _, rfl⟩ | ⟨g1, g2, _, _, hl, rfl⟩
    · cases htype
    · have hfl2 : g1 = f1 ∧ g2 = f2 := by
        rw [mkTransitRoute] at hfl
        simpa using hfl
      rcases hfl2 with ⟨rfl, rfl⟩
      unfold layoverOK at hl
      exact of_decide_eq_true hl
  · intro f1 f2 hc ho hd hw1 hw2 h2 hlay
    rw [mem_searchRoutes, mem_routes_healthy]
    refine Or.inr ⟨f1, f2, ?_, h2, ?_, rfl⟩
    · rw [mem_firstHopQuery]
      exact ⟨hc, ho, hd, hw1, hw2⟩
    · unfold layoverOK
      exact decide_eq_true hlay

/-- C1 counterexample: four qualifying second hops, all with layover at
least two hours; the `limit(3)` cap keeps only the three earliest, so the
pair with the fourth meets every condition of the claim yet its transit
option is absent from the output. -/
theorem transit_completeness_counterexample :
    ((⟨1, "A", "a", 0, 10800000, "DEL", "HYD"⟩ : Flight) ∈
      ([⟨1, "A", "a", 0, 10800000, "DEL", "HYD"⟩,
        ⟨2, "B", "b", 18000000, 21600000, "HYD", "BOM"⟩,
        ⟨3, "C", "c", 21600000, 25200000, "HYD", "BOM"⟩,
        ⟨4, "D", "d", 25200000, 28800000, "HYD", "BOM"⟩,
        ⟨5, "E", "e", 28800000, 32400000, "HYD", "BOM"⟩] : List Flight))
    ∧ ((⟨5, "E", "e", 28800000, 32400000, "HYD", "BOM"⟩ : Flight) ∈
      ([⟨1, "A", "a", 0, 10800000, "DEL", "HYD"⟩,
        ⟨2, "B", "b", 18000000, 21600000, "HYD", "BOM"⟩,
        ⟨3, "C", "c", 21600000, 25200000, "HYD", "BOM"⟩,
        ⟨4, "D", "d", 25200000, 28800000, "HYD", "BOM"⟩,
        ⟨5, "E", "e", 28800000, 32400000, "HYD", "BOM"⟩] : List Flight))
    ∧ (⟨1, "A", "a", 0, 10800000, "DEL", "HYD"⟩ : Flight).origin = "DEL"
    ∧ (⟨1, "A", "a", 0, 10800000, "DEL", "HYD"⟩ : Flight).destination =
        (⟨5, "E", "e", 28800000, 32400000, "HYD", "BOM"⟩ : Flight).origin
    ∧ (⟨1, "A", "a", 0, 10800000, "DEL", "HYD"⟩ : Flight).destination ≠ "BOM"
    ∧ (⟨5, "E", "e", 28800000, 32400000, "HYD", "BOM"⟩ : Flight).destination =
        "BOM"
    ∧ ((0 : Int) ≤ 0 ∧ (0 : Int) < 0 + msPerDay)
    ∧ ((10800000 : Int) ≤ 28800000 ∧
        (28800000 : Int) < 10800000 + 2 * msPerDay)
    ∧ 2 * msPerHour ≤ (28800000 : Int) - 10800000
    ∧ mkTransitRoute ⟨1, "A", "a", 0, 10800000, "DEL", "HYD"⟩
        ⟨5, "E", "e", 28800000, 32400000, "HYD", "BOM"⟩ ∉
      searchRoutes
        [⟨1, "A", "a", 0, 10800000, "DEL", "HYD"⟩,
         ⟨2, "B", "b", 18000000, 21600000, "HYD", "BOM"⟩,
         ⟨3, "C", "c", 21600000, 25200000, "HYD", "BOM"⟩,
         ⟨4, "D", "d", 25200000, 28800000, "HYD", "BOM"⟩,
         ⟨5, "E", "e", 28800000, 32400000, "HYD", "BOM"⟩] "DEL" "BOM" 0 := by
  exact ⟨by decide, by decide, by decide, by decide, by decide, by decide,
    by decide, by decide, by decide, by decide⟩

/-- Witness for C1 on a two-flight catalog: the qualifying pair appears. -/
theorem transit_layover_capped_completeness_witness :
    mkTransitRoute ⟨1, "A", "a", 0, 10800000, "DEL", "HYD"⟩
        ⟨2, "B", "b", 18000000, 21600000, "HYD", "BOM"⟩ ∈
      searchRoutes
        [⟨1, "A", "a", 0, 10800000, "DEL", "HYD"⟩,
         ⟨2, "B", "b", 18000000, 21600000, "HYD", "BOM"⟩] "DEL" "BOM" 0 :=
  (transit_layover_capped_completeness
      [⟨1, "A", "a", 0, 10800000, "DEL", "HYD"⟩,
       ⟨2, "B", "b", 18000000, 21600000, "HYD", "BOM"⟩] "DEL" "BOM" 0).2
    ⟨1, "A", "a", 0, 10800000, "DEL", "HYD"⟩
    ⟨2, "B", "b", 18000000, 21600000, "HYD", "BOM"⟩
    (by decide) (by decide) (by decide) (by decide) (by decide) (by decide)
    (by decide)

/-! ### Claim C8 -/

/-- C8 (amended): every route option's `total_duration` is the rendering of
(arrival of the last flight − departure of the first flight), truncated to
whole hours and leftover minutes (floor, not rounding); and provided every
catalog flight arrives no earlier than it departs, that difference is
non-negative.  (Without that proviso the difference can be negative: see
the counterexample.) -/
theorem route_duration_shape (catalog : List Flight) (o d : String) (t : Int)
    (hcat : ∀ f ∈ catalog, f.departure_datetime ≤ f.arrival_datetime) :
    (∀ r ∈ searchRoutes catalog o d t,
      ∃ fst lst, r.flights.head? = some fst ∧
        r.flights.getLast? = some lst ∧
        r.total_duration =
          calculateDuration fst.departure_datetime lst.arrival_datetime ∧
        0 ≤ lst.arrival_datetime - fst.departure_datetime)
    ∧ (∀ s e : Int, s ≤ e → calculateDuration s e =
        String.mk (natDigits ((e - s).toNat / 3600000) ++ ('h' :: ' ' ::
          (natDigits ((e - s).toNat % 3600000 / 60000) ++ ['m'])))) := by
  refine ⟨?_, calculateDuration_nonneg⟩
  intro r hr
  rw [mem_searchRoutes, mem_routes_healthy] at hr
  rcases hr with ⟨f, hf, rfl⟩ | ⟨f1, f2, h1, h2, _, rfl⟩
  · have hfc := ((mem_directQuery catalog o d t f).mp hf).1
    have := hcat f hfc
    exact ⟨f, f, rfl, rfl, rfl, by omega⟩
  · have hf1 := (mem_firstHopQuery catalog o d t f1).mp h1
    have hf2 := (mem_secondHopQuery catalog d f1 f2).mp
      (List.mem_of_mem_take h2)
    have hc1 := hcat f1 hf1.1
    have hc2 := hcat f2 hf2.1
    have hw := hf2.2.2.2.1
    exact ⟨f1, f2, rfl, rfl, rfl, by omega⟩

/-- C8 counterexample: a catalog flight arriving one hour before it departs
yields a direct route option whose duration is negative (rendered
`"-1h 0m"`): `total_duration` is not non-negative for every output. -/
theorem negative_duration_route_counterexample :
    searchRoutes [⟨1, "X", "x", 3600000, 0, "DEL", "BOM"⟩] "DEL" "BOM" 0 =
      [⟨RouteType.direct, [⟨1, "X", "x", 3600000, 0, "DEL", "BOM"⟩],
        "-1h 0m"⟩]
    ∧ (⟨1, "X", "x", 3600000, 0, "DEL", "BOM"⟩ : Flight).arrival_datetime -
        (⟨1, "X", "x", 3600000, 0, "DEL", "BOM"⟩ : Flight).departure_datetime
        < 0 :=
  ⟨by decide, by decide⟩

/-- Witness for C8 on a one-flight catalog. -/
theorem route_duration_shape_witness :
    ∃ fst lst,
      (mkDirectRoute ⟨1, "A", "a", 0, 9000000, "DEL", "BOM"⟩).flights.head? =
        some fst ∧
      (mkDirectRoute ⟨1, "A", "a", 0, 9000000, "DEL", "BOM"⟩).flights.getLast?
        = some lst ∧
      (mkDirectRoute ⟨1, "A", "a", 0, 9000000, "DEL", "BOM"⟩).total_duration =
        calculateDuration fst.departure_datetime lst.arrival_datetime ∧
      0 ≤ lst.arrival_datetime - fst.departure_datetime :=
  (route_duration_shape [⟨1, "A", "a", 0, 9000000, "DEL", "BOM"⟩] "DEL" "BOM"
      0 (by decide)).1
    (mkDirectRoute ⟨1, "A", "a", 0, 9000000, "DEL", "BOM"⟩) (by decide)

/-! ### Claim C3 -/

theorem mem_transit_part_type (catalog : List Flight) (o d : String) (t : Int)
    (r : RouteOption)
    (hr : r ∈ (firstHopQuery catalog o d t).flatMap (fun f1 =>
      transitRoutesFor f1 ((secondHopQuery catalog d f1).take 3))) :
    r.type = RouteType.transit := by
  obtain ⟨f1, _, hr2⟩ := List.mem_flatMap.mp hr
  rw [transitRoutesFor, List.mem_filterMap] at hr2
  obtain ⟨f2, _, hif⟩ := hr2
  by_cases hl : layoverOK f1 f2
  · rw [if_pos hl] at hif
    cases hif
    rfl
  · rw [if_neg hl] at hif
    cases hif

/-- Stability of the route sort expressed on duration-key classes: sorting
does not change the subsequence of options having any fixed parsed
duration. -/
theorem sortRoutes_filter_key (L : List RouteOption) (k : Nat) :
    (sortRoutes L).filter (fun r => durKey r == k) =
      L.filter (fun r => durKey r == k) := by
  have hpair : (L.filter (fun r => durKey r == k)).Pairwise durLE := by
    refine List.pairwise_of_forall_mem_list ?_
    intro a ha b hb
    have ha2 : durKey a = k := by
      simpa using (List.mem_filter.mp ha).2
    have hb2 : durKey b = k := by
      simpa using (List.mem_filter.mp hb).2
    unfold durLE
    omega
  have hsub : (L.filter (fun r => durKey r == k)).Sublist (sortRoutes L) :=
    List.sublist_insertionSort hpair (List.filter_sublist L)
  have hid : (L.filter (fun r => durKey r == k)).filter
      (fun r => durKey r == k) = L.filter (fun r => durKey r == k) := by
    rw [List.filter_eq_self]
    intro x hx
    exact (List.mem_filter.mp hx).2
  have hsub2 : (L.filter (fun r => durKey r == k)).Sublist
      ((sortRoutes L).filter (fun r => durKey r == k)) := by
    have h2 := hsub.filter (fun r => durKey r == k)
    rwa [hid] at h2
  have hperm : ((sortRoutes L).filter (fun r => durKey r == k)).Perm
      (L.filter (fun r => durKey r == k)) :=
    (List.perm_insertionSort durLE L).filter _
  exact (hsub2.eq_of_length hperm.length_eq.symm).symm

/-- C3: the route list is sorted non-decreasingly by parsed total duration;
the sort is stable — a key-equal pair in encounter order in the unsorted
route list stays in that order in the output — and consequently, since all
direct options are pushed before all transit options, a transit option
never precedes a direct option of equal parsed duration in the output. -/
theorem searchRoutes_sorted_stable (catalog : List Flight)
    (o d : String) (t : Int) :
    List.Sorted (fun a b : RouteOption => parseDuration a.total_duration ≤
        parseDuration b.total_duration) (searchRoutes catalog o d t)
    ∧ (∀ a b : RouteOption,
        parseDuration a.total_duration = parseDuration b.total_duration →
        ([a, b] : List RouteOption).Sublist
          (collectRoutes (healthyStore catalog o d t)) →
        ([a, b] : List RouteOption).Sublist (searchRoutes catalog o d t))
    ∧ (∀ a b : RouteOption,
        parseDuration a.total_duration = parseDuration b.total_duration →
        a.type = RouteType.direct → b.type = RouteType.transit →
        ¬ ([b, a] : List RouteOption).Sublist
          (searchRoutes catalog o d t)) := by
  refine ⟨?_, ?_, ?_⟩
  · exact List.sorted_insertionSort durLE _
  · intro a b hk hsub
    exact List.sublist_insertionSort
      (List.pairwise_pair.mpr (le_of_eq hk)) hsub
  · intro a b hk ha hb hsub
    have h3 : ([b, a] : List RouteOption).filter
        (fun r => durKey r == durKey a) = [b, a] := by
      rw [List.filter_eq_self]
      intro x hx
      rcases List.mem_pair.mp hx with rfl | rfl
      · simp [durKey, hk]
      · simp
    have h1 : ([b, a] : List RouteOption).Sublist
        ((searchRoutes catalog o d t).filter
          (fun r => durKey r == durKey a)) := by
      have h2 := hsub.filter (fun r => durKey r == durKey a)
      rwa [h3] at h2
    rw [show searchRoutes catalog o d t =
        sortRoutes (collectRoutes (healthyStore catalog o d t)) from rfl,
      sortRoutes_filter_key, collectRoutes_healthy_eq,
      List.filter_append] at h1
    rcases List.sublist_append_iff.mp h1 with ⟨l1, l2, heq, hl1, hl2⟩
    cases l1 with
    | nil =>
      rw [List.nil_append] at heq
      subst heq
      have hamem : a ∈ (firstHopQuery catalog o d t).flatMap (fun f1 =>
          transitRoutesFor f1 ((secondHopQuery catalog d f1).take 3)) := by
        have hin : a ∈ ((firstHopQuery catalog o d t).flatMap (fun f1 =>
            transitRoutesFor f1 ((secondHopQuery catalog d f1).take 3))).filter
              (fun r => durKey r == durKey a) :=
          hl2.subset (by simp)
        exact (List.mem_filter.mp hin).1
      have hat := mem_transit_part_type catalog o d t a hamem
      rw [ha] at hat
      cases hat
    | cons x l1t =>
      have hxb : b = x := by
        rw [List.cons_append] at heq
        injection heq with h4 h5
      have hbmem : b ∈ (directQuery catalog o d t).map mkDirectRoute := by
        have hin : b ∈ ((directQuery catalog o d t).map mkDirectRoute).filter
            (fun r => durKey r == durKey a) := by
          rw [hxb]
          exact hl1.subset (List.mem_cons_self x l1t)
        exact (List.mem_filter.mp hin).1
      obtain ⟨f, _, hbf⟩ := List.mem_map.mp hbmem
      rw [← hbf] at hb
      cases hb

/-- Witness for C3: two equal-duration direct flights keep their encounter
order in the sorted output. -/
theorem searchRoutes_sorted_stable_witness :
    ([mkDirectRoute ⟨1, "A", "a", 0, 9000000, "DEL", "BOM"⟩,
      mkDirectRoute ⟨2, "B", "b", 3600000, 12600000, "DEL", "BOM"⟩] :
        List RouteOption).Sublist
      (searchRoutes [⟨1, "A", "a", 0, 9000000, "DEL", "BOM"⟩,
        ⟨2, "B", "b", 3600000, 12600000, "DEL", "BOM"⟩] "DEL" "BOM" 0) :=
  (searchRoutes_sorted_stable
      [⟨1, "A", "a", 0, 9000000, "DEL", "BOM"⟩,
       ⟨2, "B", "b", 3600000, 12600000, "DEL", "BOM"⟩] "DEL" "BOM" 0).2.1
    (mkDirectRoute ⟨1, "A", "a", 0, 9000000, "DEL", "BOM"⟩)
    (mkDirectRoute ⟨2, "B", "b", 3600000, 12600000, "DEL", "BOM"⟩)
    (by decide) (by decide)

end AirCargo
